import Mathlib

/-!
Shallow embedding of the mt5-docker tick-ingestion pipeline.

The embedding follows `src/python/high_performance_receiver.py`
(class `HighPerformanceTickReceiver`) and, for the shutdown ordering,
also `src/python/backup_receiver.py` (class `MT5TickSubscriber`).

Python dictionaries keyed by symbol are modelled as association lists
with insertion-order-preserving update (`dictSet`), matching dict
semantics.  Timestamps and prices are rationals (Python floats are
treated as exact decimal values; all quantities in the claims are
far from any rounding boundary).  The SQLite tables are modelled as
row lists with `INSERT OR REPLACE` as delete-then-append on the
primary key.
-/

namespace MT5

abbrev Symbol := String

/-- One per-symbol, per-minute bucket of large/small bid-jump counts
(`self.gap_counts[symbol] = {"large": 0, "small": 0}`). -/
structure GapBucket where
  large : Nat
  small : Nat
deriving DecidableEq, Repr

/-- A detected sequence discontinuity, as recorded by `_check_sequence`
(reported, added to the missed counter, inserted into `sequence_gaps`). -/
structure GapEvent where
  symbol : Symbol
  gap_size : Int
  expected_seq : Int
  received_seq : Int
deriving DecidableEq, Repr

/-- A row of the `tick_gaps` table: PRIMARY KEY (timestamp, symbol);
the textual `minute` label is derived from `timestamp` and omitted. -/
structure Row where
  timestamp : Int
  symbol : Symbol
  large_gap_count : Nat
  small_gap_count : Nat
deriving DecidableEq, Repr

/-- The fields of a decoded tick payload that the processing path reads:
`tick_data["time"]`, `tick_data.get("bid")`, `tick_data["seq_num"]`. -/
structure TickData where
  time : Option ℚ
  bid : Option ℚ
  seq_num : Option Int
deriving DecidableEq, Repr

/-- dict lookup (`symbol in d` / `d[symbol]`). -/
def dictGet {α : Type} (m : List (Symbol × α)) (s : Symbol) : Option α :=
  match m with
  | [] => none
  | (k, v) :: rest => if k = s then some v else dictGet rest s

/-- dict update `d[symbol] = v`: replace in place if present, else append. -/
def dictSet {α : Type} (m : List (Symbol × α)) (s : Symbol) (v : α) : List (Symbol × α) :=
  match m with
  | [] => [(s, v)]
  | (k, w) :: rest => if k = s then (k, v) :: rest else (k, w) :: dictSet rest s v

/-- The processing-side mutable state of `HighPerformanceTickReceiver`:
`self.seq_nums`, `self.missed_messages`, the emitted gap events
(`sequence_gaps` inserts), `self.prev_bids`, `self.minute_start_time`
(stored as the minute index, i.e. `floor(epoch_seconds / 60)`),
`self.gap_counts`, `self.db_conn` (connected or failed) and the
`tick_gaps` table contents. -/
structure ProcState where
  seq_nums : List (Symbol × Int)
  missed_messages : Int
  gap_events : List GapEvent
  prev_bids : List (Symbol × ℚ)
  minute_start_time : Option Int
  gap_counts : List (Symbol × GapBucket)
  db_conn : Bool
  tick_gaps : List Row
deriving DecidableEq, Repr

/-- Fresh receiver state (`__init__`). -/
def initState : ProcState :=
  { seq_nums := [], missed_messages := 0, gap_events := [], prev_bids := []
    minute_start_time := none, gap_counts := [], db_conn := true, tick_gaps := [] }

/-- Python `symbol.endswith("JPY")`, expressed on the character sequence of
the string (so that it evaluates inside the kernel). -/
def strEndsWith (s suffix : String) : Bool :=
  List.isSuffixOf suffix.data s.data

/-- `_get_pip_size`: 0.01 for JPY pairs, 0.0001 otherwise. -/
def _get_pip_size (symbol : Symbol) : ℚ :=
  if strEndsWith symbol "JPY" then 1/100 else 1/10000

/-- `gap_pips = abs(current_bid - prev_bid) / pip_size`. -/
def gapPips (symbol : Symbol) (prev_bid current_bid : ℚ) : ℚ :=
  |current_bid - prev_bid| / _get_pip_size symbol

/-- `datetime.fromtimestamp(t).replace(second=0, microsecond=0)`, stored as a
minute index (timezone offsets are whole minutes, so truncation to the minute
is `floor(t / 60)` minutes since the epoch). -/
def minuteOf (t : ℚ) : Int := ⌊t / 60⌋

/-- `_check_sequence`: gap detection against `self.seq_nums[symbol]`, then
unconditional overwrite of the last-seen value. -/
def _check_sequence (st : ProcState) (symbol : Symbol) (seq_num : Int) : ProcState :=
  let st' : ProcState :=
    match dictGet st.seq_nums symbol with
    | some last_seq =>
      let expected_seq := last_seq + 1
      if seq_num > expected_seq then
        let gap_size := seq_num - expected_seq
        { st with
            missed_messages := st.missed_messages + gap_size
            gap_events := st.gap_events ++
              [{ symbol := symbol, gap_size := gap_size,
                 expected_seq := expected_seq, received_seq := seq_num }] }
      else st
    | none => st
  { st' with seq_nums := dictSet st'.seq_nums symbol seq_num }

/-- Whether a row carries the primary key (ts, s). -/
def rowKeyIs (ts : Int) (s : Symbol) (q : Row) : Bool :=
  q.timestamp == ts && q.symbol == s

/-- `INSERT OR REPLACE INTO tick_gaps ...` with PRIMARY KEY (timestamp,
symbol): the conflicting row, if any, is deleted and the new row stored. -/
def upsertRow (tbl : List Row) (r : Row) : List Row :=
  tbl.filter (fun q => !(rowKeyIs r.timestamp r.symbol q)) ++ [r]

/-- The `tick_gaps` row written for one symbol's bucket at a flush. -/
def bucketRow (ts : Int) (p : Symbol × GapBucket) : Row :=
  { timestamp := ts, symbol := p.1
    large_gap_count := p.2.large, small_gap_count := p.2.small }

/-- `_save_gap_counts`: writes one `tick_gaps` row per symbol of the open
minute window, keyed by the window's epoch timestamp; no-op when the
database is absent or no window is open. -/
def _save_gap_counts (st : ProcState) : ProcState :=
  if !st.db_conn then st
  else
    match st.minute_start_time with
    | none => st
    | some m =>
      let timestamp := m * 60
      let tbl :=
        st.gap_counts.foldl
          (fun tbl p => upsertRow tbl (bucketRow timestamp p))
          st.tick_gaps
      { st with tick_gaps := tbl }

/-- The minute-boundary check of `_process_tick`: when an open window exists
and the tick's minute differs, save the open window and reset the bucket
set to empty. -/
def flushStage (st : ProcState) (current_minute : Int) : ProcState :=
  match st.minute_start_time with
  | some m =>
    if current_minute ≠ m then
      { _save_gap_counts st with gap_counts := [] }
    else st
  | none => st

/-- `if symbol not in self.gap_counts: self.gap_counts[symbol] = ...`. -/
def ensureBucket (st : ProcState) (symbol : Symbol) : ProcState :=
  match dictGet st.gap_counts symbol with
  | some _ => st
  | none => { st with gap_counts := dictSet st.gap_counts symbol ⟨0, 0⟩ }

/-- `if symbol in self.prev_bids:` — compute `gap_pips` and increment the
matching counter of the symbol's bucket. -/
def classifyStage (st : ProcState) (symbol : Symbol) (current_bid : ℚ) : ProcState :=
  match dictGet st.prev_bids symbol with
  | some prev_bid =>
    let bkt := (dictGet st.gap_counts symbol).getD ⟨0, 0⟩
    let bkt :=
      if gapPips symbol prev_bid current_bid ≥ 1 then
        { bkt with large := bkt.large + 1 }
      else
        { bkt with small := bkt.small + 1 }
    { st with gap_counts := dictSet st.gap_counts symbol bkt }
  | none => st

/-- The timestamp-processing block of `_process_tick` (the body of
`if "time" in tick_data:`): minute-boundary flush and reset, window open,
bucket creation, and pip classification against the previous bid. -/
def aggregateTick (st : ProcState) (symbol : Symbol) (current_bid : ℚ) (t : ℚ) : ProcState :=
  classifyStage
    (ensureBucket
      { flushStage st (minuteOf t) with minute_start_time := some (minuteOf t) } symbol)
    symbol current_bid

/-- The sequence-number stage of `_process_tick`
(`if "seq_num" in tick_data: self._check_sequence(...)`). -/
def seqStage (st : ProcState) (symbol : Symbol) (td : TickData) : ProcState :=
  match td.seq_num with
  | some n => _check_sequence st symbol n
  | none => st

/-- `_process_tick`: sequence check first, then the mandatory-bid gate
(`if current_bid is None: return`), then the time-keyed aggregation, and
finally the unconditional `self.prev_bids[symbol] = current_bid`. -/
def _process_tick (st : ProcState) (symbol : Symbol) (td : TickData) : ProcState :=
  let st := seqStage st symbol td
  match td.bid with
  | none => st
  | some current_bid =>
    let st :=
      match td.time with
      | some t => aggregateTick st symbol current_bid t
      | none => st
    { st with prev_bids := dictSet st.prev_bids symbol current_bid }

/-- Processing a stream of decoded TICK frames in order. -/
def processTicks (st : ProcState) : List (Symbol × TickData) → ProcState
  | [] => st
  | (s, td) :: rest => processTicks (_process_tick st s td) rest

/-- The bucket a tick lands in when it opens a fresh window: classified
against the symbol's previous bid when there is one, empty otherwise. -/
def freshBucket (st : ProcState) (s : Symbol) (b : ℚ) : GapBucket :=
  match dictGet st.prev_bids s with
  | none => ⟨0, 0⟩
  | some pb => if gapPips s pb b ≥ 1 then ⟨1, 0⟩ else ⟨0, 1⟩

/-- The bucket a classified tick with timestamp `t` is about to increment:
the symbol's bucket as read by the classification step, i.e. after the
minute-boundary check, the window update and the bucket-creation step have
run on the state. -/
def bucketBefore (st : ProcState) (s : Symbol) (t : ℚ) : GapBucket :=
  (dictGet
    (ensureBucket
      { flushStage st (minuteOf t) with minute_start_time := some (minuteOf t) }
      s).gap_counts s).getD ⟨0, 0⟩

/-! ### Sequence streams: consecutive and strictly increasing inputs -/

/-- The per-symbol `seq_num` stream carried by a list of ticks, in order. -/
def seqEvents : List (Symbol × TickData) → List (Symbol × Int)
  | [] => []
  | (s, td) :: rest =>
    match td.seq_num with
    | some n => (s, n) :: seqEvents rest
    | none => seqEvents rest

/-- Relative to the last-seen map `m`, every symbol's stream advances in
steps of exactly one (first sightings are unconstrained). -/
def consecFrom (m : List (Symbol × Int)) : List (Symbol × Int) → Bool
  | [] => true
  | (s, n) :: rest =>
    match dictGet m s with
    | none => consecFrom (dictSet m s n) rest
    | some l => if n = l + 1 then consecFrom (dictSet m s n) rest else false

/-- Relative to the last-seen map `m`, every symbol's stream is strictly
increasing (first sightings are unconstrained). -/
def strictIncFrom (m : List (Symbol × Int)) : List (Symbol × Int) → Bool
  | [] => true
  | (s, n) :: rest =>
    match dictGet m s with
    | none => strictIncFrom (dictSet m s n) rest
    | some l => if l < n then strictIncFrom (dictSet m s n) rest else false

/-- A tick that carries only a sequence number and a bid. -/
def seqOnlyTick (n : Int) : TickData := { time := none, bid := some 1, seq_num := some n }

/-- The run of the claimed `seq_num` sequence [1, 2, 5] for symbol X. -/
def c2Run : ProcState :=
  processTicks initState [("X", seqOnlyTick 1), ("X", seqOnlyTick 2), ("X", seqOnlyTick 5)]

/-- State after a first tick for X with seq_num 1. -/
def c7Base : ProcState :=
  _process_tick initState "X" { time := none, bid := some 1, seq_num := some 1 }

/-- State after a follow-up tick for X with seq_num 5 and no bid. -/
def c7After : ProcState :=
  _process_tick c7Base "X" { time := none, bid := none, seq_num := some 5 }

/-- The three-tick boundary scenario: two ticks inside minute 720
(12:00:30 and 12:00:59 UTC on the epoch day) and one at 12:01:00. -/
def boundaryTicks : List (Symbol × TickData) :=
  [("EURUSD", { time := some 43230, bid := some (11/10), seq_num := none }),
   ("EURUSD", { time := some 43259, bid := some (110011/100000), seq_num := none }),
   ("EURUSD", { time := some 43260, bid := some (110012/100000), seq_num := none })]

/-- A state with an open 12:00 window, one EURUSD bucket and a previous bid. -/
def c1St : ProcState :=
  { initState with
      minute_start_time := some 720
      gap_counts := [("EURUSD", ⟨1, 0⟩)]
      prev_bids := [("EURUSD", 11/10)] }

/-- The 12:01:00 tick used to cross the boundary. -/
def c1Td : TickData := { time := some 43260, bid := some (110012/100000), seq_num := none }

/-- A same-window state for the C5 witness: window open at the tick's own
minute, an existing EURUSD bucket and a previous bid. -/
def c5St : ProcState :=
  { initState with
      minute_start_time := some (minuteOf 43230)
      gap_counts := [("EURUSD", ⟨2, 3⟩)]
      prev_bids := [("EURUSD", 11/10)] }

/-! ### Shutdown traces (`stop` of both receivers) -/

/-- The externally visible steps of a receiver's `stop` method. -/
inductive StopAction where
  | joinThreads
  | flushWindow
  | closeNetwork
  | closeDb
  | reportStats
deriving DecidableEq, Repr

/-- `HighPerformanceTickReceiver.stop`: join the three threads; if a minute
window is open, `_save_gap_counts()`; close the subscriber and requester
sockets and terminate the context; close the database; print final stats. -/
def hpStop (st : ProcState) : List StopAction :=
  [StopAction.joinThreads] ++
    (match st.minute_start_time with
     | some _ => [StopAction.flushWindow]
     | none => []) ++
    [StopAction.closeNetwork, StopAction.closeDb, StopAction.reportStats]

/-- `MT5TickSubscriber.stop`: join the receive thread; close the socket and
terminate the context; then, if a minute window is open and the bucket set
is non-empty, `_save_gap_counts()`; close the database. -/
def backupStop (minute : Option Int) (gap_counts : List (Symbol × GapBucket)) :
    List StopAction :=
  [StopAction.joinThreads, StopAction.closeNetwork] ++
    (if minute.isSome && !gap_counts.isEmpty then [StopAction.flushWindow] else []) ++
    [StopAction.closeDb]

/-- `occursBefore a b tr`: the first occurrence of `a` in `tr` is followed
(strictly later) by an occurrence of `b`. -/
def occursBefore (a b : StopAction) : List StopAction → Bool
  | [] => false
  | x :: xs => if x = a then xs.contains b else occursBefore a b xs

/-! ### The receive loop's bounded queue (`_receive_loop`) -/

/-- The state shared between `_receive_loop` and `_stats_loop`: the bounded
message queue and every counter the receiver maintains. -/
structure ReceiverState where
  queue : List String
  capacity : Nat
  receive_count : Nat
  process_count : Nat
  missed_messages : Int
deriving DecidableEq, Repr

/-- One received frame in `_receive_loop`: `self.receive_count += 1`, then
`self.message_queue.put(message, timeout=0.1)`; when the queue is full the
message is dropped after a printed warning and nothing else happens. -/
def onMessage (st : ReceiverState) (message : String) : ReceiverState :=
  if st.queue.length < st.capacity then
    { st with receive_count := st.receive_count + 1, queue := st.queue ++ [message] }
  else
    { st with receive_count := st.receive_count + 1 }

/-- What `_stats_loop` reads: receive count, process count, queue depth and
the missed-message counter. -/
def statsView (st : ReceiverState) : Nat × Nat × Nat × Int :=
  (st.receive_count, st.process_count, st.queue.length, st.missed_messages)

/-- A saturated queue (capacity 1, one queued message). -/
def fullQueueSt : ReceiverState :=
  { queue := ["m0"], capacity := 1, receive_count := 7, process_count := 7,
    missed_messages := 0 }

/-- Same counters, but with room in the queue. -/
def roomQueueSt : ReceiverState :=
  { queue := [], capacity := 1, receive_count := 7, process_count := 7,
    missed_messages := 0 }

/-- A state about to re-flush the 12:00 window over a table that already
holds a conflicting row for the same key. -/
def c9St : ProcState :=
  { initState with
      minute_start_time := some 720
      gap_counts := [("EURUSD", ⟨1, 2⟩)]
      tick_gaps := [{ timestamp := 43200, symbol := "EURUSD",
                      large_gap_count := 9, small_gap_count := 9 }] }

/-! ### Basic dictionary lemmas -/

theorem dictGet_dictSet_self {α : Type} (m : List (Symbol × α)) (s : Symbol) (v : α) :
    dictGet (dictSet m s v) s = some v := by
  induction m with
  | nil => simp [dictGet, dictSet]
  | cons p rest ih =>
    obtain ⟨k, w⟩ := p
    by_cases h : k = s <;> simp [dictGet, dictSet, h, ih]

theorem dictGet_dictSet_ne {α : Type} (m : List (Symbol × α)) (s s' : Symbol) (v : α)
    (h : s' ≠ s) : dictGet (dictSet m s v) s' = dictGet m s' := by
  have h' : s ≠ s' := fun hc => h hc.symm
  induction m with
  | nil => simp [dictGet, dictSet, h']
  | cons p rest ih =>
    obtain ⟨k, w⟩ := p
    by_cases hk : k = s
    · subst hk
      simp [dictGet, dictSet, h']
    · by_cases hk' : k = s' <;> simp [dictGet, dictSet, hk, hk', ih, h]

/-! ### Structural lemmas about `_check_sequence` -/

/-- The last-seen sequence number is overwritten unconditionally. -/
theorem check_sequence_seq_nums (st : ProcState) (s : Symbol) (n : Int) :
    (_check_sequence st s n).seq_nums = dictSet st.seq_nums s n := by
  unfold _check_sequence
  cases dictGet st.seq_nums s with
  | none => rfl
  | some l => by_cases h : n > l + 1 <;> simp [h]

/-- First sighting of a symbol: no gap check, only the seq update. -/
theorem check_sequence_fresh (st : ProcState) (s : Symbol) (n : Int)
    (h : dictGet st.seq_nums s = none) :
    _check_sequence st s n = { st with seq_nums := dictSet st.seq_nums s n } := by
  unfold _check_sequence
  rw [h]

/-- No gap when the incoming value does not exceed last-seen + 1. -/
theorem check_sequence_no_gap (st : ProcState) (s : Symbol) (n l : Int)
    (h : dictGet st.seq_nums s = some l) (hle : n ≤ l + 1) :
    _check_sequence st s n = { st with seq_nums := dictSet st.seq_nums s n } := by
  unfold _check_sequence
  rw [h]
  simp [not_lt.mpr hle]

/-- A jump beyond last-seen + 1 emits exactly one GapEvent, adds its size to
the missed counter and overwrites the last-seen value. -/
theorem check_sequence_gap (st : ProcState) (s : Symbol) (n l : Int)
    (h : dictGet st.seq_nums s = some l) (hgt : l + 1 < n) :
    _check_sequence st s n =
      { st with
          seq_nums := dictSet st.seq_nums s n
          missed_messages := st.missed_messages + (n - (l + 1))
          gap_events := st.gap_events ++
            [{ symbol := s, gap_size := n - (l + 1), expected_seq := l + 1,
               received_seq := n }] } := by
  unfold _check_sequence
  rw [h]
  simp [hgt]

/-- `_check_sequence` touches only the sequence-tracking fields. -/
theorem check_sequence_frame (st : ProcState) (s : Symbol) (n : Int) :
    (_check_sequence st s n).prev_bids = st.prev_bids ∧
    (_check_sequence st s n).minute_start_time = st.minute_start_time ∧
    (_check_sequence st s n).gap_counts = st.gap_counts ∧
    (_check_sequence st s n).db_conn = st.db_conn ∧
    (_check_sequence st s n).tick_gaps = st.tick_gaps := by
  unfold _check_sequence
  cases dictGet st.seq_nums s with
  | none => exact ⟨rfl, rfl, rfl, rfl, rfl⟩
  | some l => by_cases h : n > l + 1 <;> simp [h]

/-! ### Structural lemmas about `_save_gap_counts` and `aggregateTick` -/

/-- Closed form of the `tick_gaps` table after a flush. -/
theorem save_gap_counts_tick_gaps (st : ProcState) :
    (_save_gap_counts st).tick_gaps =
      if st.db_conn then
        match st.minute_start_time with
        | none => st.tick_gaps
        | some m =>
            st.gap_counts.foldl
              (fun tbl p => upsertRow tbl (bucketRow (m * 60) p))
              st.tick_gaps
      else st.tick_gaps := by
  unfold _save_gap_counts
  cases hdb : st.db_conn <;> cases hm : st.minute_start_time <;> simp [hdb, hm]

/-- A flush touches only the `tick_gaps` table. -/
theorem save_gap_counts_frame (st : ProcState) :
    (_save_gap_counts st).seq_nums = st.seq_nums ∧
    (_save_gap_counts st).missed_messages = st.missed_messages ∧
    (_save_gap_counts st).gap_events = st.gap_events ∧
    (_save_gap_counts st).prev_bids = st.prev_bids ∧
    (_save_gap_counts st).minute_start_time = st.minute_start_time ∧
    (_save_gap_counts st).gap_counts = st.gap_counts ∧
    (_save_gap_counts st).db_conn = st.db_conn := by
  unfold _save_gap_counts
  cases hdb : st.db_conn <;> cases hm : st.minute_start_time <;> simp [hdb, hm]

/-- The flush stage touches only `gap_counts` and `tick_gaps`. -/
theorem flushStage_frame (st : ProcState) (cm : Int) :
    (flushStage st cm).seq_nums = st.seq_nums ∧
    (flushStage st cm).missed_messages = st.missed_messages ∧
    (flushStage st cm).gap_events = st.gap_events ∧
    (flushStage st cm).prev_bids = st.prev_bids ∧
    (flushStage st cm).minute_start_time = st.minute_start_time ∧
    (flushStage st cm).db_conn = st.db_conn := by
  have hsave := save_gap_counts_frame st
  unfold flushStage
  cases hm : st.minute_start_time with
  | none => simp [hm]
  | some m =>
    by_cases hne : cm ≠ m <;>
      simp_all

/-- Bucket creation touches only `gap_counts`. -/
theorem ensureBucket_frame (st : ProcState) (s : Symbol) :
    (ensureBucket st s).seq_nums = st.seq_nums ∧
    (ensureBucket st s).missed_messages = st.missed_messages ∧
    (ensureBucket st s).gap_events = st.gap_events ∧
    (ensureBucket st s).prev_bids = st.prev_bids ∧
    (ensureBucket st s).minute_start_time = st.minute_start_time ∧
    (ensureBucket st s).db_conn = st.db_conn ∧
    (ensureBucket st s).tick_gaps = st.tick_gaps := by
  unfold ensureBucket
  cases dictGet st.gap_counts s <;> simp

/-- Classification touches only `gap_counts`. -/
theorem classifyStage_frame (st : ProcState) (s : Symbol) (b : ℚ) :
    (classifyStage st s b).seq_nums = st.seq_nums ∧
    (classifyStage st s b).missed_messages = st.missed_messages ∧
    (classifyStage st s b).gap_events = st.gap_events ∧
    (classifyStage st s b).prev_bids = st.prev_bids ∧
    (classifyStage st s b).minute_start_time = st.minute_start_time ∧
    (classifyStage st s b).db_conn = st.db_conn ∧
    (classifyStage st s b).tick_gaps = st.tick_gaps := by
  unfold classifyStage
  cases dictGet st.prev_bids s <;> simp

/-- The aggregation stage touches none of the sequence-tracking fields and
never writes `prev_bids`. -/
theorem aggregateTick_frame (st : ProcState) (s : Symbol) (b t : ℚ) :
    (aggregateTick st s b t).seq_nums = st.seq_nums ∧
    (aggregateTick st s b t).missed_messages = st.missed_messages ∧
    (aggregateTick st s b t).gap_events = st.gap_events ∧
    (aggregateTick st s b t).prev_bids = st.prev_bids ∧
    (aggregateTick st s b t).db_conn = st.db_conn := by
  unfold aggregateTick
  have h1 := flushStage_frame st (minuteOf t)
  have h2 := ensureBucket_frame { flushStage st (minuteOf t) with minute_start_time := some (minuteOf t) } s
  have h3 := classifyStage_frame (ensureBucket { flushStage st (minuteOf t) with minute_start_time := some (minuteOf t) } s) s b
  simp_all

/-! ### Structural lemmas about `_process_tick` -/

/-- The sequence stage touches only the sequence-tracking fields. -/
theorem seqStage_frame (st : ProcState) (s : Symbol) (td : TickData) :
    (seqStage st s td).prev_bids = st.prev_bids ∧
    (seqStage st s td).minute_start_time = st.minute_start_time ∧
    (seqStage st s td).gap_counts = st.gap_counts ∧
    (seqStage st s td).db_conn = st.db_conn ∧
    (seqStage st s td).tick_gaps = st.tick_gaps := by
  unfold seqStage
  cases td.seq_num with
  | none => exact ⟨rfl, rfl, rfl, rfl, rfl⟩
  | some n => exact check_sequence_frame st s n

/-- A tick without `bid` stops right after the sequence stage. -/
theorem process_tick_bid_none (st : ProcState) (s : Symbol) (td : TickData)
    (h : td.bid = none) : _process_tick st s td = seqStage st s td := by
  unfold _process_tick
  rw [h]

/-- The sequence-tracking fields of `_process_tick` are exactly those of the
sequence stage. -/
theorem process_tick_seq_fields (st : ProcState) (s : Symbol) (td : TickData) :
    (_process_tick st s td).seq_nums = (seqStage st s td).seq_nums ∧
    (_process_tick st s td).missed_messages = (seqStage st s td).missed_messages ∧
    (_process_tick st s td).gap_events = (seqStage st s td).gap_events := by
  unfold _process_tick
  cases td.bid with
  | none => exact ⟨rfl, rfl, rfl⟩
  | some b =>
    cases td.time with
    | none => exact ⟨rfl, rfl, rfl⟩
    | some t =>
      have h := aggregateTick_frame (seqStage st s td) s b t
      simp [h.1, h.2.1, h.2.2.1]

/-- Every tick carrying a valid bid ends by overwriting the symbol's
previous-bid entry, whether or not it carried a `time`. -/
theorem process_tick_prev_bids (st : ProcState) (s : Symbol) (td : TickData) (b : ℚ)
    (h : td.bid = some b) :
    (_process_tick st s td).prev_bids = dictSet st.prev_bids s b := by
  unfold _process_tick
  rw [h]
  cases td.time with
  | none => simp [(seqStage_frame st s td).1]
  | some t =>
    have ha := aggregateTick_frame (seqStage st s td) s b t
    simp [ha.2.2.2.1, (seqStage_frame st s td).1]

/-- On a minute boundary the flush stage saves the open window and clears
the bucket set. -/
theorem flushStage_boundary (st : ProcState) (cm m : Int)
    (hm : st.minute_start_time = some m) (hne : cm ≠ m) :
    flushStage st cm = { _save_gap_counts st with gap_counts := [] } := by
  unfold flushStage
  rw [hm]
  simp [hne]

/-- Inside the open minute the flush stage is the identity. -/
theorem flushStage_same (st : ProcState) (m : Int)
    (hm : st.minute_start_time = some m) :
    flushStage st m = st := by
  unfold flushStage
  rw [hm]
  simp

/-- Minute-boundary behaviour of the aggregation stage: the open window is
flushed first, the bucket set is cleared, and the tick lands in a fresh
bucket of the newly opened window. -/
theorem aggregateTick_new_window (st : ProcState) (s : Symbol) (b t : ℚ) (m : Int)
    (hm : st.minute_start_time = some m) (hne : minuteOf t ≠ m) :
    aggregateTick st s b t =
      { _save_gap_counts st with
          minute_start_time := some (minuteOf t)
          gap_counts := [(s, freshBucket st s b)] } := by
  have hsave := save_gap_counts_frame st
  unfold aggregateTick
  rw [flushStage_boundary st (minuteOf t) m hm hne]
  unfold ensureBucket
  rw [show (dictGet ([] : List (Symbol × GapBucket)) s) = none from rfl]
  unfold classifyStage freshBucket
  simp only [dictSet, hsave.2.2.2.1]
  cases hpb : dictGet st.prev_bids s with
  | none => simp
  | some pb =>
    by_cases hge : gapPips s pb b ≥ 1 <;> simp [hge, dictGet, dictSet]

/-- Same-window behaviour of the aggregation stage on a symbol with an
existing bucket and previous bid: the matching counter is incremented. -/
theorem aggregateTick_same_window (st : ProcState) (s : Symbol) (b t : ℚ)
    (L S : Nat) (pb : ℚ)
    (hm : st.minute_start_time = some (minuteOf t))
    (hbkt : dictGet st.gap_counts s = some ⟨L, S⟩)
    (hpb : dictGet st.prev_bids s = some pb) :
    dictGet (aggregateTick st s b t).gap_counts s =
      some (if gapPips s pb b ≥ 1 then ⟨L + 1, S⟩ else ⟨L, S + 1⟩) := by
  unfold aggregateTick
  rw [flushStage_same st (minuteOf t) hm]
  have heta : { st with minute_start_time := some (minuteOf t) } = st := by
    rw [← hm]
  rw [heta]
  unfold ensureBucket
  rw [hbkt]
  unfold classifyStage
  rw [hpb, hbkt]
  by_cases hge : gapPips s pb b ≥ 1 <;>
    simp [hge, dictGet_dictSet_self]

/-- Closed form of the about-to-be-incremented bucket: the symbol's
existing bucket when the tick stays in the open window, an empty bucket
when it crosses a minute boundary or the symbol has no bucket yet. -/
theorem bucketBefore_eq (st : ProcState) (s : Symbol) (t : ℚ) :
    bucketBefore st s t =
      match st.minute_start_time with
      | some m =>
          if minuteOf t ≠ m then ⟨0, 0⟩ else (dictGet st.gap_counts s).getD ⟨0, 0⟩
      | none => (dictGet st.gap_counts s).getD ⟨0, 0⟩ := by
  unfold bucketBefore ensureBucket
  cases hm : st.minute_start_time with
  | none =>
    have hfg : (flushStage st (minuteOf t)).gap_counts = st.gap_counts := by
      unfold flushStage
      rw [hm]
    cases hg : dictGet st.gap_counts s <;>
      simp [hfg, hg, dictGet_dictSet_self]
  | some m =>
    by_cases hne : minuteOf t ≠ m
    · have hfg : (flushStage st (minuteOf t)).gap_counts = [] := by
        rw [flushStage_boundary st (minuteOf t) m hm hne]
      simp [hfg, hne, dictGet, dictGet_dictSet_self]
    · have heq : minuteOf t = m := not_not.mp hne
      have hfg : (flushStage st (minuteOf t)).gap_counts = st.gap_counts := by
        rw [heq, flushStage_same st m hm]
      cases hg : dictGet st.gap_counts s <;>
        simp [hfg, hg, hne, dictGet_dictSet_self]

/-- The sequence stage does not affect the about-to-be-incremented bucket. -/
theorem bucketBefore_seqStage (st : ProcState) (s : Symbol) (td : TickData) (t : ℚ) :
    bucketBefore (seqStage st s td) s t = bucketBefore st s t := by
  have hfr := seqStage_frame st s td
  rw [bucketBefore_eq, bucketBefore_eq, hfr.2.1, hfr.2.2.1]

/-- The classification step on a symbol with a previous bid: the symbol's
bucket gains one large count iff `gap_pips ≥ 1`, one small count
otherwise. -/
theorem classifyStage_result (st : ProcState) (s : Symbol) (b pb : ℚ)
    (hpb : dictGet st.prev_bids s = some pb) :
    dictGet (classifyStage st s b).gap_counts s =
      some (if gapPips s pb b ≥ 1
            then { (dictGet st.gap_counts s).getD ⟨0, 0⟩ with
                     large := ((dictGet st.gap_counts s).getD ⟨0, 0⟩).large + 1 }
            else { (dictGet st.gap_counts s).getD ⟨0, 0⟩ with
                     small := ((dictGet st.gap_counts s).getD ⟨0, 0⟩).small + 1 }) := by
  unfold classifyStage
  rw [hpb]
  by_cases hge : gapPips s pb b ≥ 1 <;>
    simp [hge, dictGet_dictSet_self]

/-- Fully timed tick: `_process_tick` is the aggregation of the
sequence-staged state followed by the previous-bid overwrite. -/
theorem process_tick_timed (st : ProcState) (s : Symbol) (td : TickData) (b t : ℚ)
    (hb : td.bid = some b) (ht : td.time = some t) :
    _process_tick st s td =
      { aggregateTick (seqStage st s td) s b t with
          prev_bids :=
            dictSet (aggregateTick (seqStage st s td) s b t).prev_bids s b } := by
  unfold _process_tick
  rw [hb, ht]

/-- The flushed table depends only on the database handle, the open minute,
the bucket set and the prior table. -/
theorem save_tick_gaps_congr (st₁ st₂ : ProcState)
    (hdb : st₁.db_conn = st₂.db_conn)
    (hm : st₁.minute_start_time = st₂.minute_start_time)
    (hg : st₁.gap_counts = st₂.gap_counts)
    (ht : st₁.tick_gaps = st₂.tick_gaps) :
    (_save_gap_counts st₁).tick_gaps = (_save_gap_counts st₂).tick_gaps := by
  rw [save_gap_counts_tick_gaps, save_gap_counts_tick_gaps, hdb, hm, hg, ht]

/-- The fresh bucket depends only on the previous-bid map. -/
theorem freshBucket_congr (st₁ st₂ : ProcState) (s : Symbol) (b : ℚ)
    (h : st₁.prev_bids = st₂.prev_bids) :
    freshBucket st₁ s b = freshBucket st₂ s b := by
  unfold freshBucket
  rw [h]

/-- Consecutive per-symbol streams leave the missed counter untouched. -/
theorem processTicks_missed_of_consec (ticks : List (Symbol × TickData)) :
    ∀ st : ProcState, consecFrom st.seq_nums (seqEvents ticks) = true →
      (processTicks st ticks).missed_messages = st.missed_messages := by
  induction ticks with
  | nil => intro st _; rfl
  | cons p rest ih =>
    obtain ⟨s, td⟩ := p
    intro st h
    have hstep : processTicks st ((s, td) :: rest) = processTicks (_process_tick st s td) rest := rfl
    have hseq := process_tick_seq_fields st s td
    cases hn : td.seq_num with
    | none =>
      have hid : seqStage st s td = st := by unfold seqStage; rw [hn]
      have hev : seqEvents ((s, td) :: rest) = seqEvents rest := by
        simp [seqEvents, hn]
      rw [hev] at h
      rw [hstep, ih (_process_tick st s td) (by rw [hseq.1, hid]; exact h)]
      rw [hseq.2.1, hid]
    | some n =>
      have hcs : seqStage st s td = _check_sequence st s n := by unfold seqStage; rw [hn]
      have hev : seqEvents ((s, td) :: rest) = (s, n) :: seqEvents rest := by
        simp [seqEvents, hn]
      rw [hev] at h
      unfold consecFrom at h
      split at h
      · rename_i hl
        have hchar := check_sequence_fresh st s n hl
        rw [hstep, ih (_process_tick st s td)
          (by rw [hseq.1, hcs, hchar]; exact h)]
        rw [hseq.2.1, hcs, hchar]
      · rename_i l hl
        by_cases h1 : n = l + 1
        · rw [if_pos h1] at h
          have hchar := check_sequence_no_gap st s n l hl (le_of_eq h1)
          rw [hstep, ih (_process_tick st s td)
            (by rw [hseq.1, hcs, hchar]; exact h)]
          rw [hseq.2.1, hcs, hchar]
        · rw [if_neg h1] at h
          exact absurd h (by simp)

/-! ### Claim theorems -/

/-- C6: for every tick carrying a `seq_num`, after the sequence check the
last-seen value for its symbol equals exactly the incoming `seq_num`
(unconditional overwrite, not `max`), and the first sighting of a symbol
establishes the last-seen value with no gap check and no GapEvent. -/
theorem c6_unconditional_overwrite :
    (∀ st s td n, td.seq_num = some n →
        dictGet (_process_tick st s td).seq_nums s = some n) ∧
    (∀ st s n, (_check_sequence st s n).seq_nums = dictSet st.seq_nums s n) ∧
    (∀ st s n, dictGet (_check_sequence st s n).seq_nums s = some n) ∧
    (∀ st s n, dictGet st.seq_nums s = none →
        _check_sequence st s n = { st with seq_nums := dictSet st.seq_nums s n }) := by
  refine ⟨?_, check_sequence_seq_nums, ?_, check_sequence_fresh⟩
  · intro st s td n h
    rw [(process_tick_seq_fields st s td).1]
    unfold seqStage
    rw [h, check_sequence_seq_nums, dictGet_dictSet_self]
  · intro st s n
    rw [check_sequence_seq_nums, dictGet_dictSet_self]

/-- C6 witness: an overwrite at a concrete input, with a lower incoming
value overwriting a higher last-seen value. -/
theorem c6_witness :
    dictGet (_process_tick { initState with seq_nums := [("X", 42)] } "X"
      { time := none, bid := some 1, seq_num := some 7 }).seq_nums "X" = some 7 :=
  c6_unconditional_overwrite.1 { initState with seq_nums := [("X", 42)] } "X" _ 7 rfl

/-- C2 counterexample: on [1, 2, 5] the code emits one GapEvent with
gap_size = 5 − 3 = 2 (messages 3 and 4 are missing) and adds 2 to the
missed counter — not 3 as the claim states. -/
theorem c2_counterexample :
    c2Run.gap_events =
      [{ symbol := "X", gap_size := 2, expected_seq := 3, received_seq := 5 }] ∧
    c2Run.missed_messages = 2 ∧
    ¬ (c2Run.missed_messages = 3) := by decide

/-- C2 amended: on [1, 2, 5] exactly one GapEvent is produced, with
gap_size = 2, expected_seq = 3, received_seq = 5, and the missed counter
increases by exactly 2; no GapEvent is produced on a first sighting or on
a seq_num equal to last-seen + 1. -/
theorem c2_amended :
    (c2Run.gap_events =
        [{ symbol := "X", gap_size := 2, expected_seq := 3, received_seq := 5 }] ∧
      c2Run.missed_messages = 2) ∧
    (∀ st s n, dictGet st.seq_nums s = none →
        (_check_sequence st s n).gap_events = st.gap_events ∧
        (_check_sequence st s n).missed_messages = st.missed_messages) ∧
    (∀ st s l, dictGet st.seq_nums s = some l →
        (_check_sequence st s (l + 1)).gap_events = st.gap_events ∧
        (_check_sequence st s (l + 1)).missed_messages = st.missed_messages) := by
  refine ⟨by decide, ?_, ?_⟩
  · intro st s n h
    rw [check_sequence_fresh st s n h]
    exact ⟨rfl, rfl⟩
  · intro st s l h
    rw [check_sequence_no_gap st s (l + 1) l h (le_refl _)]
    exact ⟨rfl, rfl⟩

/-- C2 witness: the no-gap conclusions at a concrete input. -/
theorem c2_witness :
    (_check_sequence initState "Y" 9).gap_events = initState.gap_events ∧
    (_check_sequence initState "Y" 9).missed_messages = initState.missed_messages :=
  c2_amended.2.1 initState "Y" 9 rfl

/-- C3 counterexample: [1, 3] is strictly increasing for symbol X, yet the
run detects a gap and the missed counter ends at 1, not 0. -/
theorem c3_counterexample :
    strictIncFrom [] (seqEvents [("X", seqOnlyTick 1), ("X", seqOnlyTick 3)]) = true ∧
    ¬ ((processTicks initState
          [("X", seqOnlyTick 1), ("X", seqOnlyTick 3)]).missed_messages = 0) := by
  decide

/-- C3 amended: strengthening "strictly increasing" to "consecutive"
(every tick's seq_num is its symbol's first sighting or last-seen + 1), the
missed counter is unchanged by the whole run, hence stays 0 from a fresh
state. -/
theorem c3_consecutive_keeps_missed_zero :
    (∀ ticks (st : ProcState), consecFrom st.seq_nums (seqEvents ticks) = true →
        (processTicks st ticks).missed_messages = st.missed_messages) ∧
    (∀ ticks, consecFrom [] (seqEvents ticks) = true →
        (processTicks initState ticks).missed_messages = 0) := by
  refine ⟨fun ticks => processTicks_missed_of_consec ticks, ?_⟩
  intro ticks h
  exact processTicks_missed_of_consec ticks initState h

/-- C3 witness: a concrete consecutive two-symbol run ends with missed = 0. -/
theorem c3_witness :
    (processTicks initState
        [("X", seqOnlyTick 1), ("Y", seqOnlyTick 5), ("X", seqOnlyTick 2),
         ("Y", seqOnlyTick 6)]).missed_messages = 0 :=
  c3_consecutive_keeps_missed_zero.2 _ (by decide)

/-- C7 amended: a tick without `bid` is discarded before any aggregation
work — previous bids, the minute window, buckets and the `tick_gaps` table
are untouched — but the sequence check has already run, so the sequence
state may change. -/
theorem c7_bid_none_only_seq :
    ∀ st s td, td.bid = none →
      _process_tick st s td = seqStage st s td ∧
      (_process_tick st s td).prev_bids = st.prev_bids ∧
      (_process_tick st s td).minute_start_time = st.minute_start_time ∧
      (_process_tick st s td).gap_counts = st.gap_counts ∧
      (_process_tick st s td).tick_gaps = st.tick_gaps := by
  intro st s td h
  have h1 := process_tick_bid_none st s td h
  have h2 := seqStage_frame st s td
  exact ⟨h1, by rw [h1, h2.1], by rw [h1, h2.2.1], by rw [h1, h2.2.2.1],
    by rw [h1, h2.2.2.2.2]⟩

/-- C7 counterexample: a tick with `seq_num` 5 and no `bid` does change the
downstream sequence state — the missed counter jumps from 0 to 3 and the
last-seen value moves from 1 to 5 — because `_check_sequence` runs before
the bid check. -/
theorem c7_counterexample :
    c7After ≠ c7Base ∧ c7Base.missed_messages = 0 ∧ c7After.missed_messages = 3 ∧
    dictGet c7Base.seq_nums "X" = some 1 ∧ dictGet c7After.seq_nums "X" = some 5 := by
  decide

/-- C7 witness: the amended conclusions at a concrete input. -/
theorem c7_witness :
    _process_tick initState "Z" { time := none, bid := none, seq_num := none } =
      seqStage initState "Z" { time := none, bid := none, seq_num := none } :=
  (c7_bid_none_only_seq initState "Z" _ rfl).1

/-- `"EURUSD"` is not JPY-quoted. -/
theorem eurusd_not_jpy : strEndsWith "EURUSD" "JPY" = false := by decide

/-- `"USDJPY"` is JPY-quoted. -/
theorem usdjpy_is_jpy : strEndsWith "USDJPY" "JPY" = true := by decide

/-- C1: on a tick whose minute differs from the open window, `_process_tick`
first flushes every bucket of the open window to the `tick_gaps` table,
then clears the bucket set, and only then aggregates the tick into a fresh
bucket of the newly opened window; concretely, ticks at 12:00:30, 12:00:59
and 12:01:00 leave a flushed 12:00 row counting only the two 12:00 ticks
(one large jump), while the 12:01 tick lands in a fresh bucket. -/
theorem c1_minute_boundary_flush :
    (∀ st s td (t b : ℚ) (m : Int),
        td.time = some t → td.bid = some b →
        st.minute_start_time = some m → minuteOf t ≠ m →
        (_process_tick st s td).tick_gaps = (_save_gap_counts st).tick_gaps ∧
        (_process_tick st s td).minute_start_time = some (minuteOf t) ∧
        (_process_tick st s td).gap_counts = [(s, freshBucket st s b)]) ∧
    processTicks initState boundaryTicks =
      { seq_nums := [], missed_messages := 0, gap_events := [],
        prev_bids := [("EURUSD", 110012/100000)], minute_start_time := some 721,
        gap_counts := [("EURUSD", ⟨0, 1⟩)], db_conn := true,
        tick_gaps := [⟨43200, "EURUSD", 1, 0⟩] } := by
  constructor
  · intro st s td t b m ht hb hm hne
    have hfr := seqStage_frame st s td
    have hm1 : (seqStage st s td).minute_start_time = some m := by rw [hfr.2.1, hm]
    have hnew := aggregateTick_new_window (seqStage st s td) s b t m hm1 hne
    rw [process_tick_timed st s td b t hb ht, hnew]
    refine ⟨?_, rfl, ?_⟩
    · exact save_tick_gaps_congr _ _ hfr.2.2.2.1 hfr.2.1 hfr.2.2.1 hfr.2.2.2.2
    · rw [freshBucket_congr _ _ s b hfr.1]
  · norm_num [boundaryTicks, processTicks, _process_tick, seqStage, aggregateTick,
      flushStage, ensureBucket, classifyStage, _check_sequence, _save_gap_counts,
      dictGet, dictSet, upsertRow, rowKeyIs, bucketRow, gapPips, _get_pip_size, eurusd_not_jpy,
      abs_of_pos, abs_of_nonneg, minuteOf, initState]

/-- C1 witness: the boundary conclusions at a concrete input. -/
theorem c1_witness :
    minuteOf 43260 ≠ 720 ∧
    ((_process_tick c1St "EURUSD" c1Td).tick_gaps = (_save_gap_counts c1St).tick_gaps ∧
      (_process_tick c1St "EURUSD" c1Td).minute_start_time = some (minuteOf 43260) ∧
      (_process_tick c1St "EURUSD" c1Td).gap_counts =
        [("EURUSD", freshBucket c1St "EURUSD" (110012/100000))]) :=
  ⟨by with_unfolding_all decide,
    c1_minute_boundary_flush.1 c1St "EURUSD" c1Td 43260 (110012/100000) 720
      rfl rfl rfl (by with_unfolding_all decide)⟩

/-- C5: every classified tick — a tick with `time` and `bid` for a symbol
with an existing previous bid, in any state — increments its bucket's large
count iff `gap_pips = |bid − prev_bid| / pip_size ≥ 1` and the small count
otherwise, where the bucket is the symbol's existing bucket when the tick
stays in the open window and a fresh empty one when it crosses a minute
boundary; pip_size is 0.01 for JPY-quoted symbols and 0.0001 otherwise;
concretely 1.10000 → 1.10011 is large (1.1 pips) and 1.10000 → 1.10005 is
small (0.5 pips). -/
theorem c5_pip_classification :
    (∀ st s td (t b pb : ℚ),
        td.time = some t → td.bid = some b →
        dictGet st.prev_bids s = some pb →
        dictGet (_process_tick st s td).gap_counts s =
          some (if gapPips s pb b ≥ 1
                then { bucketBefore st s t with
                         large := (bucketBefore st s t).large + 1 }
                else { bucketBefore st s t with
                         small := (bucketBefore st s t).small + 1 })) ∧
    (∀ st s t (L S : Nat), st.minute_start_time = some (minuteOf t) →
        dictGet st.gap_counts s = some ⟨L, S⟩ → bucketBefore st s t = ⟨L, S⟩) ∧
    (∀ st s t (m : Int), st.minute_start_time = some m → minuteOf t ≠ m →
        bucketBefore st s t = ⟨0, 0⟩) ∧
    (∀ s pb b, gapPips s pb b = |b - pb| / _get_pip_size s) ∧
    (_get_pip_size "EURUSD" = 1/10000 ∧ _get_pip_size "USDJPY" = 1/100) ∧
    (gapPips "EURUSD" (11/10) (110011/100000) = 11/10 ∧
      gapPips "EURUSD" (11/10) (110011/100000) ≥ 1) ∧
    (gapPips "EURUSD" (11/10) (110005/100000) = 1/2 ∧
      ¬ gapPips "EURUSD" (11/10) (110005/100000) ≥ 1) := by
  refine ⟨?_, ?_, ?_, fun s pb b => rfl, ⟨?_, ?_⟩, ⟨?_, ?_⟩, ⟨?_, ?_⟩⟩
  · intro st s td t b pb ht hb hpb
    rw [process_tick_timed st s td b t hb ht]
    have hgc : ({ aggregateTick (seqStage st s td) s b t with
        prev_bids :=
          dictSet (aggregateTick (seqStage st s td) s b t).prev_bids s b }).gap_counts =
        (aggregateTick (seqStage st s td) s b t).gap_counts := rfl
    unfold aggregateTick at hgc ⊢
    have hpb2 : dictGet
        (ensureBucket
          { flushStage (seqStage st s td) (minuteOf t) with
              minute_start_time := some (minuteOf t) } s).prev_bids s = some pb := by
      rw [(ensureBucket_frame _ s).2.2.2.1]
      rw [show ({ flushStage (seqStage st s td) (minuteOf t) with
          minute_start_time := some (minuteOf t) } : ProcState).prev_bids =
          (flushStage (seqStage st s td) (minuteOf t)).prev_bids from rfl]
      rw [(flushStage_frame _ _).2.2.2.1, (seqStage_frame st s td).1, hpb]
    rw [hgc, classifyStage_result _ s b pb hpb2]
    have hbb : (dictGet
        (ensureBucket
          { flushStage (seqStage st s td) (minuteOf t) with
              minute_start_time := some (minuteOf t) } s).gap_counts s).getD ⟨0, 0⟩ =
        bucketBefore st s t := by
      rw [← bucketBefore_seqStage st s td t]
      rfl
    rw [hbb]
  · intro st s t L S hm hg
    rw [bucketBefore_eq, hm]
    simp [hg]
  · intro st s t m hm hne
    rw [bucketBefore_eq, hm]
    simp [hne]
  · simp [_get_pip_size, eurusd_not_jpy]
  · simp [_get_pip_size, usdjpy_is_jpy]
  · norm_num [gapPips, _get_pip_size, eurusd_not_jpy, abs_of_pos, abs_of_nonneg]
  · norm_num [gapPips, _get_pip_size, eurusd_not_jpy, abs_of_pos, abs_of_nonneg]
  · norm_num [gapPips, _get_pip_size, eurusd_not_jpy, abs_of_pos, abs_of_nonneg]
  · norm_num [gapPips, _get_pip_size, eurusd_not_jpy, abs_of_pos, abs_of_nonneg]

/-- C5 witness: the classification conclusion at a concrete input. -/
theorem c5_witness :
    dictGet (_process_tick c5St "EURUSD"
        { time := some 43230, bid := some (110011/100000), seq_num := none }).gap_counts
        "EURUSD" =
      some (if gapPips "EURUSD" (11/10) (110011/100000) ≥ 1
            then { bucketBefore c5St "EURUSD" 43230 with
                     large := (bucketBefore c5St "EURUSD" 43230).large + 1 }
            else { bucketBefore c5St "EURUSD" 43230 with
                     small := (bucketBefore c5St "EURUSD" 43230).small + 1 }) :=
  c5_pip_classification.1 c5St "EURUSD" _ 43230 (110011/100000) (11/10)
    rfl rfl (by with_unfolding_all decide)

/-- C10: the previous-bid map is never cleared — flushing resets only the
bucket set, so the first classified tick of a new window is compared
against the last bid of the previous window — and every tick with a valid
bid overwrites the previous bid even when it carries no `time` (touching no
other aggregation state). -/
theorem c10_prev_bids_persist :
    (∀ st s td (b : ℚ), td.bid = some b →
        (_process_tick st s td).prev_bids = dictSet st.prev_bids s b) ∧
    (∀ st, (_save_gap_counts st).prev_bids = st.prev_bids) ∧
    (∀ st cm, (flushStage st cm).prev_bids = st.prev_bids) ∧
    (∀ st s td (b : ℚ), td.bid = some b → td.time = none →
        (_process_tick st s td).minute_start_time = st.minute_start_time ∧
        (_process_tick st s td).gap_counts = st.gap_counts ∧
        (_process_tick st s td).tick_gaps = st.tick_gaps ∧
        (_process_tick st s td).prev_bids = dictSet st.prev_bids s b) ∧
    (∀ st s td (t b pb : ℚ) (m : Int),
        td.time = some t → td.bid = some b →
        st.minute_start_time = some m → minuteOf t ≠ m →
        dictGet st.prev_bids s = some pb →
        (_process_tick st s td).gap_counts =
          [(s, if gapPips s pb b ≥ 1 then ⟨1, 0⟩ else ⟨0, 1⟩)]) := by
  refine ⟨process_tick_prev_bids, fun st => (save_gap_counts_frame st).2.2.2.1,
    fun st cm => (flushStage_frame st cm).2.2.2.1, ?_, ?_⟩
  · intro st s td b hb ht
    have hfr := seqStage_frame st s td
    have huntimed : _process_tick st s td =
        { seqStage st s td with
            prev_bids := dictSet (seqStage st s td).prev_bids s b } := by
      unfold _process_tick
      rw [hb, ht]
    rw [huntimed]
    exact ⟨hfr.2.1, hfr.2.2.1, hfr.2.2.2.2, by rw [hfr.1]⟩
  · intro st s td t b pb m ht hb hm hne hpb
    have hfr := seqStage_frame st s td
    have hm1 : (seqStage st s td).minute_start_time = some m := by rw [hfr.2.1, hm]
    rw [process_tick_timed st s td b t hb ht,
      aggregateTick_new_window (seqStage st s td) s b t m hm1 hne]
    have : freshBucket (seqStage st s td) s b =
        (if gapPips s pb b ≥ 1 then ⟨1, 0⟩ else ⟨0, 1⟩) := by
      unfold freshBucket
      rw [hfr.1, hpb]
    simp [this]

/-- C10 witness: a time-less tick at a concrete input updates the previous
bid and nothing else. -/
theorem c10_witness :
    (_process_tick c5St "EURUSD"
        { time := none, bid := some 2, seq_num := none }).minute_start_time =
      c5St.minute_start_time ∧
    (_process_tick c5St "EURUSD"
        { time := none, bid := some 2, seq_num := none }).gap_counts = c5St.gap_counts ∧
    (_process_tick c5St "EURUSD"
        { time := none, bid := some 2, seq_num := none }).tick_gaps = c5St.tick_gaps ∧
    (_process_tick c5St "EURUSD"
        { time := none, bid := some 2, seq_num := none }).prev_bids =
      dictSet c5St.prev_bids "EURUSD" 2 :=
  c10_prev_bids_persist.2.2.2.1 c5St "EURUSD" _ 2 rfl rfl

/-! ### C4, C8, C9 -/

/-- C4 counterexample: the backup receiver with an open window does flush
exactly once on shutdown, but only after its socket and context have been
closed — the flush does not precede the release of network resources. -/
theorem c4_counterexample :
    (backupStop (some 720) [("EURUSD", ⟨0, 0⟩)]).count StopAction.flushWindow = 1 ∧
    occursBefore StopAction.flushWindow StopAction.closeNetwork
      (backupStop (some 720) [("EURUSD", ⟨0, 0⟩)]) = false ∧
    occursBefore StopAction.closeNetwork StopAction.flushWindow
      (backupStop (some 720) [("EURUSD", ⟨0, 0⟩)]) = true := by
  decide

/-- C4 amended: with an open window, both receivers flush exactly once
before releasing the Persistence Sink (the backup receiver additionally
requires a non-empty bucket set); the high-performance receiver flushes
before releasing network resources as well, while the backup receiver
closes its network resources first; with no open window neither flushes. -/
theorem c4_shutdown_flush :
    (∀ st : ProcState, st.minute_start_time.isSome = true →
        (hpStop st).count StopAction.flushWindow = 1 ∧
        occursBefore StopAction.flushWindow StopAction.closeNetwork (hpStop st) = true ∧
        occursBefore StopAction.flushWindow StopAction.closeDb (hpStop st) = true) ∧
    (∀ (m : Int) (gc : List (Symbol × GapBucket)), gc ≠ [] →
        (backupStop (some m) gc).count StopAction.flushWindow = 1 ∧
        occursBefore StopAction.flushWindow StopAction.closeDb
          (backupStop (some m) gc) = true) ∧
    (∀ st : ProcState, st.minute_start_time = none →
        (hpStop st).count StopAction.flushWindow = 0) ∧
    (∀ gc : List (Symbol × GapBucket),
        (backupStop none gc).count StopAction.flushWindow = 0) := by
  have hopen : ∀ (st : ProcState) (m : Int), st.minute_start_time = some m →
      hpStop st = [StopAction.joinThreads, StopAction.flushWindow,
        StopAction.closeNetwork, StopAction.closeDb, StopAction.reportStats] := by
    intro st m hm
    unfold hpStop
    rw [hm]
    rfl
  have hclosed : ∀ st : ProcState, st.minute_start_time = none →
      hpStop st = [StopAction.joinThreads, StopAction.closeNetwork,
        StopAction.closeDb, StopAction.reportStats] := by
    intro st hm
    unfold hpStop
    rw [hm]
    rfl
  have hbk : ∀ (m : Int) (p : Symbol × GapBucket) (rest : List (Symbol × GapBucket)),
      backupStop (some m) (p :: rest) = [StopAction.joinThreads,
        StopAction.closeNetwork, StopAction.flushWindow, StopAction.closeDb] :=
    fun m p rest => rfl
  have hbknone : ∀ gc : List (Symbol × GapBucket),
      backupStop none gc = [StopAction.joinThreads, StopAction.closeNetwork,
        StopAction.closeDb] :=
    fun gc => rfl
  refine ⟨?_, ?_, ?_, ?_⟩
  · intro st h
    obtain ⟨m, hm⟩ := Option.isSome_iff_exists.mp h
    rw [hopen st m hm]
    exact ⟨by decide, by decide, by decide⟩
  · intro m gc hgc
    cases gc with
    | nil => exact absurd rfl hgc
    | cons p rest =>
      rw [hbk m p rest]
      exact ⟨by decide, by decide⟩
  · intro st h
    rw [hclosed st h]
    decide
  · intro gc
    rw [hbknone gc]
    decide

/-- C4 witness: the shutdown conclusions at concrete inputs. -/
theorem c4_witness :
    (hpStop c1St).count StopAction.flushWindow = 1 ∧
    occursBefore StopAction.flushWindow StopAction.closeNetwork (hpStop c1St) = true ∧
    occursBefore StopAction.flushWindow StopAction.closeDb (hpStop c1St) = true :=
  c4_shutdown_flush.1 c1St (by decide)

/-- C8 counterexample: when the queue is full the message is dropped, but
no counter records the drop — the post-drop state differs from the
pre-drop state only in the receive counter, which increments for every
received message, and the stats view after a dropped message is identical
to the stats view after a successfully enqueued one. -/
theorem c8_counterexample :
    onMessage fullQueueSt "m1" = { fullQueueSt with receive_count := 8 } ∧
    onMessage fullQueueSt "m1" ≠ fullQueueSt ∧
    statsView (onMessage fullQueueSt "m1") = statsView (onMessage roomQueueSt "m1") := by
  decide

/-- C8 amended: when the queue is full the message is dropped and the
pipeline continues — the queue and every counter other than the
unconditionally incremented receive counter are left unchanged; no
dropped-on-full counter exists. -/
theorem c8_queue_full_drop :
    ∀ st message, st.capacity ≤ st.queue.length →
      onMessage st message = { st with receive_count := st.receive_count + 1 } := by
  intro st message h
  unfold onMessage
  rw [if_neg (not_lt.mpr h)]

/-- C8 witness: the drop conclusion at a concrete input. -/
theorem c8_witness :
    onMessage fullQueueSt "m2" = { fullQueueSt with receive_count := 8 } :=
  c8_queue_full_drop fullQueueSt "m2" (by decide)

/-! ### C9: upsert idempotence of the tick_gaps table -/

/-- After one upsert, the table holds exactly one row with the upserted
row's key, namely the upserted row itself. -/
theorem filter_upsertRow_self (tbl : List Row) (r : Row) :
    (upsertRow tbl r).filter (rowKeyIs r.timestamp r.symbol) = [r] := by
  unfold upsertRow
  rw [List.filter_append]
  have hself : rowKeyIs r.timestamp r.symbol r = true := by simp [rowKeyIs]
  have hnil : ∀ l : List Row,
      (l.filter (fun q => !(rowKeyIs r.timestamp r.symbol q))).filter
          (rowKeyIs r.timestamp r.symbol) = [] := by
    intro l
    induction l with
    | nil => rfl
    | cons q rest ih =>
      by_cases hq : rowKeyIs r.timestamp r.symbol q = true
      · simp [List.filter_cons, hq, ih]
      · have hq' : rowKeyIs r.timestamp r.symbol q = false := by
          simpa using hq
        simp [List.filter_cons, hq', ih]
  rw [hnil tbl]
  simp [List.filter_cons, hself]

/-- An upsert under a different key leaves the rows of a given key
untouched. -/
theorem filter_upsertRow_other (tbl : List Row) (r : Row) (ts : Int) (s : Symbol)
    (h : rowKeyIs ts s r = false) :
    (upsertRow tbl r).filter (rowKeyIs ts s) = tbl.filter (rowKeyIs ts s) := by
  unfold upsertRow
  rw [List.filter_append]
  have hkeep : ∀ l : List Row,
      (l.filter (fun q => !(rowKeyIs r.timestamp r.symbol q))).filter (rowKeyIs ts s) =
        l.filter (rowKeyIs ts s) := by
    intro l
    induction l with
    | nil => rfl
    | cons q rest ih =>
      by_cases hq : rowKeyIs ts s q = true
      · have hqr : rowKeyIs r.timestamp r.symbol q = false := by
          rcases Bool.eq_false_or_eq_true (rowKeyIs r.timestamp r.symbol q) with ht | hf
          · exfalso
            simp only [rowKeyIs, Bool.and_eq_true, beq_iff_eq] at hq ht
            have htrue : rowKeyIs ts s r = true := by
              simp only [rowKeyIs, Bool.and_eq_true, beq_iff_eq]
              exact ⟨by rw [← ht.1, hq.1], by rw [← ht.2, hq.2]⟩
            rw [htrue] at h
            exact Bool.noConfusion h
          · exact hf
        simp [List.filter_cons, hq, hqr, ih]
      · by_cases hqr : rowKeyIs r.timestamp r.symbol q = true
        · simp [List.filter_cons, hq, hqr, ih]
        · have hqr' : rowKeyIs r.timestamp r.symbol q = false := by simpa using hqr
          simp [List.filter_cons, hq, hqr', ih]
  rw [hkeep tbl]
  simp [List.filter_cons, h]

/-- Folding upserts for symbols other than `s` preserves the rows keyed
`(ts, s)`. -/
theorem foldl_upsert_filter_not_mem (ts : Int) (s : Symbol) :
    ∀ (l : List (Symbol × GapBucket)), s ∉ l.map Prod.fst → ∀ tbl : List Row,
      (l.foldl (fun tbl p => upsertRow tbl (bucketRow ts p)) tbl).filter
          (rowKeyIs ts s) =
        tbl.filter (rowKeyIs ts s) := by
  intro l
  induction l with
  | nil => intro _ tbl; rfl
  | cons p rest ih =>
    intro h tbl
    have hs : p.1 ≠ s := fun hc => h (by simp [hc])
    have hrest : s ∉ rest.map Prod.fst := fun hc => h (by simp [hc])
    rw [List.foldl_cons, ih hrest]
    refine filter_upsertRow_other tbl (bucketRow ts p) ts s ?_
    simp [rowKeyIs, bucketRow, hs]

/-- After a flush, the table holds exactly one row for each symbol of the
open window, carrying that symbol's flushed counts. -/
theorem foldl_upsert_filter_mem (ts : Int) (s : Symbol) (bkt : GapBucket) :
    ∀ (l : List (Symbol × GapBucket)), (l.map Prod.fst).Nodup → (s, bkt) ∈ l →
      ∀ tbl : List Row,
      (l.foldl (fun tbl p => upsertRow tbl (bucketRow ts p)) tbl).filter
          (rowKeyIs ts s) =
        [bucketRow ts (s, bkt)] := by
  intro l
  induction l with
  | nil => intro _ hmem; exact absurd hmem (List.not_mem_nil _)
  | cons p rest ih =>
    intro hnd hmem tbl
    rw [List.map_cons, List.nodup_cons] at hnd
    rcases List.mem_cons.mp hmem with heq | hmem'
    · have hp : p = (s, bkt) := heq.symm
      subst hp
      rw [List.foldl_cons, foldl_upsert_filter_not_mem ts s rest hnd.1]
      have := filter_upsertRow_self tbl (bucketRow ts (s, bkt))
      simpa [bucketRow] using this
    · rw [List.foldl_cons]
      exact ih hnd.2 hmem' _

/-- C9: the persistence upsert path replaces rather than accumulates — one
upsert leaves exactly one row under the written key (whatever the prior
table contents, hence after any number of re-flushes), and a flush of the
open window leaves exactly one `tick_gaps` row per flushed symbol, holding
that flush's counts. -/
theorem c9_upsert_replaces :
    (∀ (tbl : List Row) (r : Row),
        (upsertRow tbl r).filter (rowKeyIs r.timestamp r.symbol) = [r]) ∧
    (∀ (st : ProcState) (m : Int) (s : Symbol) (bkt : GapBucket),
        st.db_conn = true → st.minute_start_time = some m →
        (st.gap_counts.map Prod.fst).Nodup → (s, bkt) ∈ st.gap_counts →
        ((_save_gap_counts st).tick_gaps).filter (rowKeyIs (m * 60) s) =
          [{ timestamp := m * 60, symbol := s, large_gap_count := bkt.large
             small_gap_count := bkt.small }]) := by
  refine ⟨filter_upsertRow_self, ?_⟩
  intro st m s bkt hdb hm hnd hmem
  rw [save_gap_counts_tick_gaps, hdb, hm]
  have := foldl_upsert_filter_mem (m * 60) s bkt st.gap_counts hnd hmem st.tick_gaps
  simpa [bucketRow] using this

/-- C9 witness: re-flushing the same (minute, symbol) key over a stale row
leaves exactly one row with the latest counts. -/
theorem c9_witness :
    ((_save_gap_counts c9St).tick_gaps).filter (rowKeyIs (720 * 60) "EURUSD") =
      [{ timestamp := 720 * 60, symbol := "EURUSD", large_gap_count := 1
         small_gap_count := 2 }] :=
  c9_upsert_replaces.2 c9St 720 "EURUSD" ⟨1, 2⟩ rfl rfl (by decide) (by decide)

end MT5
